import Mathlib

/-!
Verification of the RehabRiskAgent analysis pipeline
(src/project-code-group/2026-Khan-Liu-Peng-code/src/_init_.py).

Modelling conventions (shallow embedding):
* A table cell is `Option ℚ`: the value the cell has after the
  pandas numeric coercion step; a cell that is not numeric-coercible
  (NaN after `pd.to_numeric(..., errors='coerce')`) is `none`.
  Re-coercing an already-coerced column is therefore the identity,
  exactly as it is in pandas on an already numeric column.
* Floating point values are modelled by exact rationals.  Every
  comparison against a possibly-NaN quantity follows IEEE/pandas
  semantics: a comparison involving NaN is false.  Quantities that
  can be NaN in the program (a 0/0 ratio, the mean of an empty
  series, a sample standard deviation over fewer than two valid
  values) are modelled as `Option ℚ` with `none` for NaN.
* The standard deviations of the stability metric are carried as
  their squares (sample variances).  Since both standard deviations
  are nonnegative and squaring is strictly monotone on nonnegative
  reals, `std₁ > std₂ ↔ var₁ > var₂` and, for a threshold `t`,
  `std > t ↔ (t < 0 ∨ var > t²)`; the rounded value printed in the
  risk label is recovered by the integer-rounded square root
  `roundSqrtQ`, which is exact on rationals.
* A data frame is a `Table`: its column count (`df.shape[1]`, which
  pandas keeps even when all rows are filtered away) together with
  the list of rows.  Positional cell access out of range yields a
  missing value, as pandas pads short CSV rows with NaN.
* The file system seen by the dataset locator is a list of
  `FileEntry` (name as a character list, integer modification time),
  in directory-listing order.  `glob` name matching is a pattern of
  literal segments separated by `*`, anchored at both ends, with the
  usual rule that a leading `*` does not match a name starting with
  a dot.
* The console output of `analyze` is modelled as the list of risk
  labels (`self.risks`) together with the list of warning lines; the
  informational value-printing lines are not modelled.
-/

namespace RehabRisk

/-- The five clinical thresholds of `RiskConfig` (a frozen dataclass
in the source; values are floats there, exact rationals here). -/
structure RiskConfig where
  BASELINE_WORKLOAD : ℚ
  EXERTION_TOLERANCE_PCT : ℚ
  STABILITY_THRESHOLD_SD : ℚ
  SILENCE_THRESHOLD : ℚ
  SILENCE_RATIO_LIMIT : ℚ
deriving DecidableEq

/-- The default configuration built by `RiskConfig()`. -/
def defaultConfig : RiskConfig :=
  ⟨1400, 50, 300, 100, 3/10⟩

/-- A cell after numeric coercion: `none` is the NaN sentinel. -/
abbrev Cell := Option ℚ

/-- A loaded data frame: column count and rows.  `ncols` models
`df.shape[1]`, which survives row filtering in pandas. -/
structure Table where
  ncols : ℕ
  rows : List (List Cell)
deriving DecidableEq

/-- `df.iloc[:, i]` — the `i`-th column as a series; a missing cell
reads as NaN. -/
def colVals (i : ℕ) (t : Table) : List Cell :=
  t.rows.map (fun r => r.getD i none)

/-- The row filter of `_load_and_clean`:
`df[df.iloc[:, col_index] > 10]`.  A NaN cell compares false. -/
def keepRow (i : ℕ) (r : List Cell) : Bool :=
  match r.getD i none with
  | some q => decide (10 < q)
  | none => false

/-- `_load_and_clean` from the point where the CSV has been parsed:
reject a table with too few columns (`df.shape[1] <= col_index`),
coerce the designated column (identity on our coerced cells) and
keep the rows whose designated value exceeds 10. -/
def load_and_clean (i : ℕ) (t : Table) : Option Table :=
  if t.ncols ≤ i then none
  else some ⟨t.ncols, t.rows.filter (keepRow i)⟩

/-- `(series.abs() < thr).sum()` — the number of cells whose absolute
value is below `thr`; NaN cells never count. -/
def countBelow (thr : ℚ) (c : List Cell) : ℕ :=
  (c.filter (fun x =>
    match x with
    | some q => decide (|q| < thr)
    | none => false)).length

/-- `series.mean()` with pandas defaults: skip NaN, NaN on an empty
series. -/
def seriesMean (c : List Cell) : Option ℚ :=
  let xs := c.filterMap id
  if xs.length = 0 then none
  else some (xs.sum / xs.length)

/-- The square of `series.std()` with pandas defaults (`ddof=1`,
skip NaN): the two-pass sample variance — mean first, then averaged
squared deviations with denominator `n - 1`; NaN (here `none`) when
fewer than two valid values remain. -/
def sampleVar (c : List Cell) : Option ℚ :=
  let xs := c.filterMap id
  if xs.length < 2 then none
  else
    let m := xs.sum / xs.length
    some ((xs.map (fun x => (x - m) ^ 2)).sum / ((xs.length : ℚ) - 1))

/-- Round half to even, the rounding used by Python float formatting
with `:.0f` / `:.1%` on exactly-representable values. -/
def rhe (q : ℚ) : ℤ :=
  let f : ℤ := ⌊q⌋
  let r : ℚ := q - f
  if r < 1/2 then f
  else if 1/2 < r then f + 1
  else if f % 2 = 0 then f else f + 1

/-- `f"{q:.1%}"` — the ratio as a percentage with one decimal, for
the nonnegative ratios produced by the pipeline. -/
def formatPct1 (q : ℚ) : String :=
  let n : ℤ := rhe (q * 1000)
  toString (n / 10) ++ "." ++ toString (n % 10) ++ "%"

/-- The integer-rounded square root of a nonnegative rational
(round half to even), used to recover `f"{max_std:.0f}"` from the
variance `v = max_std²`. -/
def roundSqrtQ (v : ℚ) : ℕ :=
  let n := Nat.sqrt ⌊v⌋.toNat
  if (n : ℚ) ^ 2 + n + 1/4 < v then n + 1
  else if v = (n : ℚ) ^ 2 + n + 1/4 then (if n % 2 = 0 then n else n + 1)
  else n

/-- `std > t` for `std = √v ≥ 0`, decided on the variance `v`. -/
def stdGtThr (v t : ℚ) : Bool :=
  decide (t < 0) || decide (t ^ 2 < v)

/-- Python's `max(std₃, std₄)` carried on variances: `max` keeps the
first argument unless the second compares strictly greater, so a NaN
(`none`) second argument is ignored while a NaN first argument wins. -/
def maxStdVar (a b : Option ℚ) : Option ℚ :=
  match a, b with
  | some va, some vb => if va < vb then some vb else some va
  | _, _ => a

/-- Warning line of the respiratory step when the speak source is
absent or unreadable. -/
def speakWarn : String := "   Warning: Speak file not found or invalid format"

/-- Warning line of the exertion step when the bike source is absent
or unreadable. -/
def bikeWarn : String := "   Warning: Bike file not found or invalid format"

/-- Warning line of the stability step when the static source is
absent or unreadable. -/
def staticWarn : String := "   Warning: Static file not found or invalid format"

/-- Warning line of the stability step when the static table has no
fifth column. -/
def staticColWarn : String := "   Warning: Static data missing Y-axis column"

/-- Respiratory step of `analyze` on the cleaned speak table:
`gap_ratio = (col2.abs() < SILENCE_THRESHOLD).sum() / len(df)`;
on an empty table the ratio is 0/0 = NaN (a RuntimeWarning in
numpy, not an exception) and the risk comparison is false.
Returns (risk labels, warning lines). -/
def respStep (cfg : RiskConfig) (odf : Option Table) : List String × List String :=
  match odf with
  | none => ([], [speakWarn])
  | some df =>
    let c := colVals 2 df
    if c.length = 0 then ([], [])
    else
      let r : ℚ := countBelow cfg.SILENCE_THRESHOLD c / c.length
      if cfg.SILENCE_RATIO_LIMIT < r then
        (["Respiratory Risk (" ++ formatPct1 r ++ ")"], [])
      else ([], [])

/-- Exertion step of `analyze` on the cleaned bike table:
`avg_load = col2.mean()`, `delta = (avg - BASE)/BASE * 100`; the mean
of an empty series is NaN and the risk comparison is then false. -/
def bikeStep (cfg : RiskConfig) (odf : Option Table) : List String × List String :=
  match odf with
  | none => ([], [bikeWarn])
  | some df =>
    match seriesMean (colVals 2 df) with
    | none => ([], [])
    | some avg =>
      let delta := (avg - cfg.BASELINE_WORKLOAD) / cfg.BASELINE_WORKLOAD * 100
      if cfg.EXERTION_TOLERANCE_PCT < delta then
        (["PEM Risk (" ++ toString (rhe delta) ++ "%)"], [])
      else ([], [])

/-- Stability step of `analyze` on the cleaned static table: require
a fifth column, coerce it (identity on coerced cells), take
`max(col3.std(), col4.std())` (as variances) and compare with the
threshold. -/
def staticStep (cfg : RiskConfig) (odf : Option Table) : List String × List String :=
  match odf with
  | none => ([], [staticWarn])
  | some df =>
    if 4 < df.ncols then
      match maxStdVar (sampleVar (colVals 3 df)) (sampleVar (colVals 4 df)) with
      | none => ([], [])
      | some v =>
        if stdGtThr v cfg.STABILITY_THRESHOLD_SD then
          (["Neuro Risk (" ++ toString (roundSqrtQ v) ++ ")"], [])
        else ([], [])
    else ([], [staticColWarn])

/-- `RehabRiskAgent.analyze`, given the three parsed raw tables
(`none` for a missing or unparseable file): each source is cleaned
by `_load_and_clean` and evaluated; risks and warnings accumulate in
the fixed order Respiratory, Exertion, Stability. -/
def analyze (cfg : RiskConfig) (speak bike static : Option Table) :
    List String × List String :=
  ((respStep cfg (speak.bind (load_and_clean 2))).1 ++
     (bikeStep cfg (bike.bind (load_and_clean 2))).1 ++
     (staticStep cfg (static.bind (load_and_clean 3))).1,
   (respStep cfg (speak.bind (load_and_clean 2))).2 ++
     (bikeStep cfg (bike.bind (load_and_clean 2))).2 ++
     (staticStep cfg (static.bind (load_and_clean 3))).2)

/-- `RehabRiskAgent.get_result` on the accumulated risk list. -/
def get_result (risks : List String) : String :=
  if risks.isEmpty then "PASS (Healthy Data)"
  else "FAIL (" ++ String.intercalate "; " risks ++ ")"

/-! ### The dataset locator (`_load_and_clean`, file-selection part) -/

/-- A directory entry as the locator sees it: the file name and its
modification time (`st_mtime`). -/
structure FileEntry where
  name : List Char
  mtime : ℤ
deriving DecidableEq

/-- The literal characters of the `.csv` pattern tail. -/
def csvSuffix : List Char := ['.', 'c', 's', 'v']

/-- Remainder of `s` after the first occurrence of the literal
segment `pat`, if `pat` occurs in `s` at all.  This is how a glob
`*pat*rest` consumes `pat`: the earliest occurrence leaves the most
room for the rest of the pattern. -/
def splitFirst (pat : List Char) : List Char → Option (List Char)
  | [] => if pat.isPrefixOf ([] : List Char) then some [] else none
  | c :: t =>
    if pat.isPrefixOf (c :: t) then some ((c :: t).drop pat.length)
    else splitFirst pat t

/-- Match the literal segments of a glob `*p₁*p₂*…*` (each separated
by a `*`) against `s`, in order. -/
def matchOrdered (pats : List (List Char)) (s : List Char) : Bool :=
  match pats with
  | [] => true
  | p :: ps =>
    match splitFirst p s with
    | some r => matchOrdered ps r
    | none => false

/-- A name beginning with a dot, which a leading glob `*` never
matches. -/
def hiddenName (s : List Char) : Bool :=
  match s with
  | '.' :: _ => true
  | _ => false

/-- Matching of the patient-specific pattern
`*{patient_id}*{file_keyword}*.csv` against a file name. -/
def globMatch1 (pid kw s : List Char) : Bool :=
  !hiddenName s && csvSuffix.isSuffixOf s &&
    matchOrdered [pid, kw] (s.take (s.length - 4))

/-- Matching of the fallback pattern `*{file_keyword}*.csv`. -/
def globMatch2 (kw s : List Char) : Bool :=
  !hiddenName s && csvSuffix.isSuffixOf s &&
    matchOrdered [kw] (s.take (s.length - 4))

/-- `max(files, key=lambda f: Path(f).stat().st_mtime)`: Python's
`max` keeps the earliest entry among those with the maximal key. -/
def maxByMtime : List FileEntry → Option FileEntry
  | [] => none
  | f :: fs => some (fs.foldl (fun acc g => if acc.mtime < g.mtime then g else acc) f)

/-- File selection of `_load_and_clean`: glob with the
patient-specific pattern; only if that yields nothing, glob with the
keyword-only pattern; pick the most recently modified match; `none`
when neither pattern matches anything. -/
def locate (pid kw : List Char) (dir : List FileEntry) : Option FileEntry :=
  match maxByMtime (dir.filter (fun f => globMatch1 pid kw f.name)) with
  | some f => some f
  | none => maxByMtime (dir.filter (fun f => globMatch2 kw f.name))

/-! ### Concrete tables used by the example-based claims -/

/-- The speak-source table of the respiratory testable property:
column 2 holds `[5,5,5,5,5,200,200,200,200,200]`. -/
def speakTableLow : Table :=
  ⟨3, [[some 0, some 0, some 5], [some 0, some 0, some 5], [some 0, some 0, some 5],
       [some 0, some 0, some 5], [some 0, some 0, some 5],
       [some 0, some 0, some 200], [some 0, some 0, some 200], [some 0, some 0, some 200],
       [some 0, some 0, some 200], [some 0, some 0, some 200]]⟩

/-- The same example with the quiet samples above the noise floor:
column 2 holds `[50,50,50,50,50,200,200,200,200,200]`, so cleaning
retains all ten rows. -/
def speakTableMid : Table :=
  ⟨3, [[some 0, some 0, some 50], [some 0, some 0, some 50], [some 0, some 0, some 50],
       [some 0, some 0, some 50], [some 0, some 0, some 50],
       [some 0, some 0, some 200], [some 0, some 0, some 200], [some 0, some 0, some 200],
       [some 0, some 0, some 200], [some 0, some 0, some 200]]⟩

/-- A static-source table whose columns 3 and 4 have sample standard
deviations exactly 150 and 320 (variances 22500 and 102400). -/
def staticTableStd : Table :=
  ⟨5, [[some 1, some 1, some 1, some 50, some 0],
       [some 1, some 1, some 1, some 200, some 320],
       [some 1, some 1, some 1, some 350, some 640]]⟩

/-- A static-source table whose column 4 is entirely non-numeric
while column 3 has sample standard deviation √180000 ≈ 424.26. -/
def staticTableNanCol : Table :=
  ⟨5, [[some 1, some 1, some 1, some 50, none],
       [some 1, some 1, some 1, some 650, none]]⟩

end RehabRisk

/-! ## Theorems -/

namespace RehabRisk

/-- A FAIL verdict is never the PASS verdict: the two strings differ
in their first character. -/
theorem fail_ne_pass (s : String) :
    "FAIL (" ++ s ++ ")" ≠ "PASS (Healthy Data)" := by
  intro h
  have hd := congrArg String.data h
  simp only [String.data_append] at hd
  have hd' : 'F' :: ('A' :: 'I' :: 'L' :: ' ' :: '(' :: []) ++ s.data ++ [')'] =
      'P' :: "ASS (Healthy Data)".data := hd
  injection hd' with h1 _
  exact absurd h1 (by decide)

/-- Claim C2: the verdict is "PASS (Healthy Data)" exactly when the
accumulated risk sequence is empty; otherwise it is a FAIL string
joining every label with "; "; and the sequence produced by a run of
analyze is the respiratory labels, then the exertion labels, then
the stability labels, in that order. -/
theorem claim2_verdict_spec :
    (∀ risks : List String,
      (get_result risks = "PASS (Healthy Data)" ↔ risks = []) ∧
      (risks ≠ [] →
        get_result risks = "FAIL (" ++ String.intercalate "; " risks ++ ")")) ∧
    (∀ (cfg : RiskConfig) (speak bike static : Option Table),
      (analyze cfg speak bike static).1 =
        (respStep cfg (speak.bind (load_and_clean 2))).1 ++
          (bikeStep cfg (bike.bind (load_and_clean 2))).1 ++
          (staticStep cfg (static.bind (load_and_clean 3))).1) := by
  refine ⟨fun risks => ⟨⟨fun h => ?_, fun h => by simp [get_result, h]⟩, fun h => ?_⟩,
    fun cfg s b st => rfl⟩
  · by_contra hne
    rw [get_result, if_neg (by simpa using hne)] at h
    exact fail_ne_pass _ h
  · rw [get_result, if_neg (by simpa using h)]

/-- Witness for claim C2 at concrete label lists. -/
theorem claim2_verdict_spec_witness :
    (get_result [] = "PASS (Healthy Data)") ∧
    (get_result ["Respiratory Risk (50.0%)", "PEM Risk (57%)"] =
      "FAIL (" ++ String.intercalate "; " ["Respiratory Risk (50.0%)", "PEM Risk (57%)"] ++ ")") :=
  ⟨(claim2_verdict_spec.1 []).1.mpr rfl,
   (claim2_verdict_spec.1 ["Respiratory Risk (50.0%)", "PEM Risk (57%)"]).2 (by decide)⟩

/-- Claim C4: when the cleaned table of any of the three sources is
empty after filtering, the corresponding metric evaluation appends
no risk label (and, being a total function, completes without
fault): the 0/0 pause ratio, the mean of an empty series and the
standard deviation of an empty series are all NaN, and every
comparison against NaN is false. -/
theorem claim4_empty_table_no_risk (cfg : RiskConfig) (t : Table)
    (h : t.rows = []) :
    (respStep cfg (some t)).1 = [] ∧
    (bikeStep cfg (some t)).1 = [] ∧
    (staticStep cfg (some t)).1 = [] := by
  have hc : ∀ i, colVals i t = [] := fun i => by simp [colVals, h]
  refine ⟨?_, ?_, ?_⟩
  · simp [respStep, hc]
  · simp [bikeStep, hc, seriesMean]
  · by_cases h4 : 4 < t.ncols
    · simp [staticStep, h4, hc, sampleVar, maxStdVar]
    · simp [staticStep, h4]

/-- Witness for claim C4 at a concrete empty five-column table. -/
theorem claim4_empty_table_no_risk_witness :
    (⟨5, []⟩ : Table).rows = [] ∧
    ((respStep defaultConfig (some ⟨5, []⟩)).1 = [] ∧
     (bikeStep defaultConfig (some ⟨5, []⟩)).1 = [] ∧
     (staticStep defaultConfig (some ⟨5, []⟩)).1 = []) :=
  ⟨rfl, claim4_empty_table_no_risk defaultConfig ⟨5, []⟩ rfl⟩

/-- Claim C5: every table returned by the cleaner has, in every
retained row, a numeric designated-column value strictly greater
than 10, and the retained rows form a sublist (hence keep the
original order) of the input rows. -/
theorem claim5_clean_invariant (i : ℕ) (t t' : Table)
    (h : load_and_clean i t = some t') :
    (∀ r ∈ t'.rows, ∃ q : ℚ, r.getD i none = some q ∧ 10 < q) ∧
    t'.rows.Sublist t.rows := by
  rw [load_and_clean] at h
  split at h
  · exact absurd h (by simp)
  · obtain rfl : (⟨t.ncols, t.rows.filter (keepRow i)⟩ : Table) = t' :=
      Option.some_injective _ h
    refine ⟨fun r hr => ?_, List.filter_sublist _⟩
    have hk : keepRow i r = true := (List.mem_filter.mp hr).2
    rw [keepRow] at hk
    split at hk
    · next q hq => exact ⟨q, hq, by simpa using hk⟩
    · exact absurd hk (by simp)

/-- Witness for claim C5 at a concrete one-row table. -/
theorem claim5_clean_invariant_witness :
    (∀ r ∈ (⟨3, [[none, none, some 42]]⟩ : Table).rows,
      ∃ q : ℚ, r.getD 2 none = some q ∧ 10 < q) ∧
    (⟨3, [[none, none, some 42]]⟩ : Table).rows.Sublist
      [[none, none, some (42 : ℚ)]] :=
  claim5_clean_invariant 2 ⟨3, [[none, none, some 42]]⟩ ⟨3, [[none, none, some 42]]⟩ rfl

/-- Claim C7: when the cleaned static table has no fifth column the
stability computation is not attempted: no risk label is appended,
the distinct missing-Y-axis warning (and only it) is emitted, and
the step returns normally.  The warning differs from the
file-missing warning. -/
theorem claim7_static_missing_column (cfg : RiskConfig) (t : Table)
    (h : t.ncols ≤ 4) :
    staticStep cfg (some t) = ([], [staticColWarn]) ∧
    staticColWarn ≠ staticWarn := by
  refine ⟨?_, by decide⟩
  rw [staticStep, if_neg (by omega)]

/-- Witness for claim C7 at a concrete four-column table. -/
theorem claim7_static_missing_column_witness :
    staticStep defaultConfig (some ⟨4, [[some 1, some 1, some 1, some 99]]⟩) =
      ([], [staticColWarn]) ∧ staticColWarn ≠ staticWarn :=
  claim7_static_missing_column defaultConfig ⟨4, [[some 1, some 1, some 1, some 99]]⟩
    (by decide)

/-- Claim C8: cleaning is idempotent — a table that came out of the
cleaner goes through the cleaner unchanged. -/
theorem claim8_cleaning_idempotent (i : ℕ) (t t' : Table)
    (h : load_and_clean i t = some t') :
    load_and_clean i t' = some t' := by
  rw [load_and_clean] at h
  split at h
  · exact absurd h (by simp)
  · next hle =>
    obtain rfl : (⟨t.ncols, t.rows.filter (keepRow i)⟩ : Table) = t' :=
      Option.some_injective _ h
    rw [load_and_clean, if_neg hle]
    simp [List.filter_filter]

/-- Witness for claim C8 at a concrete table with one noise row. -/
theorem claim8_cleaning_idempotent_witness :
    load_and_clean 2 (⟨3, [[none, none, some 42]]⟩ : Table) =
      some ⟨3, [[none, none, some 42]]⟩ :=
  claim8_cleaning_idempotent 2 ⟨3, [[none, none, some 3], [none, none, some 42]]⟩
    ⟨3, [[none, none, some 42]]⟩ rfl

/-- Evaluation of the rounded square root when `√v` rounds down:
`n² ≤ v < n² + n + ¼` means `n ≤ √v < n + ½`. -/
theorem roundSqrtQ_eq_of_between (v : ℚ) (n : ℕ) (h1 : (n : ℚ) ^ 2 ≤ v)
    (h2 : v < (n : ℚ) ^ 2 + n + 1/4) : roundSqrtQ v = n := by
  have hfl : ((n * n : ℕ) : ℤ) ≤ ⌊v⌋ := by
    rw [Int.le_floor]
    push_cast
    nlinarith
  have hfu : ⌊v⌋ < (((n + 1) * (n + 1) : ℕ) : ℤ) := by
    rw [Int.floor_lt]
    push_cast
    nlinarith
  have hs : Nat.sqrt ⌊v⌋.toNat = n := by
    symm
    rw [Nat.eq_sqrt]
    constructor
    · omega
    · omega
  rw [roundSqrtQ]
  simp only [hs]
  rw [if_neg (by intro hcon; linarith), if_neg (by intro hcon; linarith)]

/-- Claim C6: the exertion risk is one-sided.  With a positive
baseline and a nonnegative tolerance (the defaults are 1400 and 50):
a column-2 mean at or below the baseline — however low — never
appends a PEM label, and a PEM label is appended only when the
percentage delta strictly exceeds the tolerance. -/
theorem claim6_exertion_one_sided (cfg : RiskConfig) (df : Table)
    (hb : 0 < cfg.BASELINE_WORKLOAD) (ht : 0 ≤ cfg.EXERTION_TOLERANCE_PCT) :
    (∀ m : ℚ, seriesMean (colVals 2 df) = some m →
      m ≤ cfg.BASELINE_WORKLOAD → (bikeStep cfg (some df)).1 = []) ∧
    ((bikeStep cfg (some df)).1 ≠ [] →
      ∃ m : ℚ, seriesMean (colVals 2 df) = some m ∧
        cfg.EXERTION_TOLERANCE_PCT <
          (m - cfg.BASELINE_WORKLOAD) / cfg.BASELINE_WORKLOAD * 100) := by
  constructor
  · intro m hm hle
    have h1 : m - cfg.BASELINE_WORKLOAD ≤ 0 := by linarith
    have h2 : (m - cfg.BASELINE_WORKLOAD) / cfg.BASELINE_WORKLOAD ≤ 0 :=
      div_nonpos_iff.mpr (Or.inr ⟨h1, hb.le⟩)
    have h3 : (m - cfg.BASELINE_WORKLOAD) / cfg.BASELINE_WORKLOAD * 100 ≤ 0 := by
      nlinarith
    simp only [bikeStep, hm]
    rw [if_neg (by intro hcon; linarith)]
  · intro hne
    cases hsm : seriesMean (colVals 2 df) with
    | none => simp [bikeStep, hsm] at hne
    | some m =>
      by_cases hc : cfg.EXERTION_TOLERANCE_PCT <
          (m - cfg.BASELINE_WORKLOAD) / cfg.BASELINE_WORKLOAD * 100
      · exact ⟨m, rfl, hc⟩
      · simp [bikeStep, hsm, hc] at hne

/-- Witness for claim C6 at the default configuration and a concrete
bike table. -/
theorem claim6_exertion_one_sided_witness :
    (0 < defaultConfig.BASELINE_WORKLOAD ∧
      0 ≤ defaultConfig.EXERTION_TOLERANCE_PCT) ∧
    ((∀ m : ℚ, seriesMean (colVals 2 (⟨3, []⟩ : Table)) = some m →
        m ≤ defaultConfig.BASELINE_WORKLOAD →
        (bikeStep defaultConfig (some ⟨3, []⟩)).1 = []) ∧
      ((bikeStep defaultConfig (some ⟨3, []⟩)).1 ≠ [] →
        ∃ m : ℚ, seriesMean (colVals 2 (⟨3, []⟩ : Table)) = some m ∧
          defaultConfig.EXERTION_TOLERANCE_PCT <
            (m - defaultConfig.BASELINE_WORKLOAD) /
              defaultConfig.BASELINE_WORKLOAD * 100)) :=
  ⟨⟨by decide, by decide⟩,
   claim6_exertion_one_sided defaultConfig ⟨3, []⟩ (by decide) (by decide)⟩

/-- Counterexample to claim C1: on the speak table whose column 2
holds `[5,5,5,5,5,200,200,200,200,200]`, cleaning first removes the
five rows with value 5 (they are not > 10), so the pause ratio of
the remaining five rows of 200 is 0, not 0.5, and no respiratory
risk label is appended. -/
theorem claim1_counterexample :
    colVals 2 speakTableLow =
      [some 5, some 5, some 5, some 5, some 5,
       some 200, some 200, some 200, some 200, some 200] ∧
    load_and_clean 2 speakTableLow =
      some ⟨3, [[some 0, some 0, some 200], [some 0, some 0, some 200],
                [some 0, some 0, some 200], [some 0, some 0, some 200],
                [some 0, some 0, some 200]]⟩ ∧
    respStep defaultConfig ((some speakTableLow).bind (load_and_clean 2)) =
      ([], []) := by
  refine ⟨by decide, by decide, ?_⟩
  have hb : (some speakTableLow).bind (load_and_clean 2) =
      some ⟨3, [[some 0, some 0, some 200], [some 0, some 0, some 200],
                [some 0, some 0, some 200], [some 0, some 0, some 200],
                [some 0, some 0, some 200]]⟩ := by decide
  rw [hb]
  have hcb : countBelow defaultConfig.SILENCE_THRESHOLD
      (colVals 2 (⟨3, [[some 0, some 0, some 200], [some 0, some 0, some 200],
                [some 0, some 0, some 200], [some 0, some 0, some 200],
                [some 0, some 0, some 200]]⟩ : Table)) = 0 := by decide
  simp only [respStep, hcb]
  norm_num [colVals, defaultConfig]

/-- Claim C1 as amended: with the five quiet samples at 50 — above
the noise floor 10 but below the silence threshold 100 — cleaning
retains all ten rows, the pause ratio is 5/10 = 0.5 > 0.3, and the
respiratory risk label "Respiratory Risk (50.0%)" is appended. -/
theorem claim1_amended_speak_example :
    colVals 2 speakTableMid =
      [some 50, some 50, some 50, some 50, some 50,
       some 200, some 200, some 200, some 200, some 200] ∧
    load_and_clean 2 speakTableMid = some speakTableMid ∧
    (countBelow defaultConfig.SILENCE_THRESHOLD (colVals 2 speakTableMid) : ℚ) /
      ((colVals 2 speakTableMid).length : ℚ) = 1/2 ∧
    defaultConfig.SILENCE_RATIO_LIMIT < 1/2 ∧
    respStep defaultConfig ((some speakTableMid).bind (load_and_clean 2)) =
      (["Respiratory Risk (50.0%)"], []) := by
  have hcb : countBelow defaultConfig.SILENCE_THRESHOLD (colVals 2 speakTableMid) = 5 := by
    decide
  have hlen : (colVals 2 speakTableMid).length = 10 := by decide
  refine ⟨by decide, by decide, ?_, by norm_num [defaultConfig], ?_⟩
  · rw [hcb, hlen]
    norm_num
  · have hb : (some speakTableMid).bind (load_and_clean 2) = some speakTableMid := by
      decide
    rw [hb]
    simp only [respStep, hcb, hlen]
    norm_num [defaultConfig, formatPct1, rhe]
    rfl

/-- Claim C9: on a cleaned static table whose columns 3 and 4 have
two-pass sample variances 150² = 22500 and 320² = 102400 (that is,
sample standard deviations 150 and 320, with the N−1 denominator of
pandas' default ddof=1), the maximal standard deviation 320 exceeds
the threshold 300 and exactly the label "Neuro Risk (320)" is
appended. -/
theorem claim9_stability_example :
    load_and_clean 3 staticTableStd = some staticTableStd ∧
    sampleVar (colVals 3 staticTableStd) = some (150 ^ 2) ∧
    sampleVar (colVals 4 staticTableStd) = some (320 ^ 2) ∧
    staticStep defaultConfig ((some staticTableStd).bind (load_and_clean 3)) =
      (["Neuro Risk (320)"], []) := by
  have hv3 : sampleVar (colVals 3 staticTableStd) = some 22500 := by
    norm_num [sampleVar, colVals, staticTableStd, List.filterMap_cons]
  have hv4 : sampleVar (colVals 4 staticTableStd) = some 102400 := by
    norm_num [sampleVar, colVals, staticTableStd, List.filterMap_cons]
  refine ⟨by decide, by rw [hv3]; norm_num, by rw [hv4]; norm_num, ?_⟩
  have hb : (some staticTableStd).bind (load_and_clean 3) = some staticTableStd := by
    decide
  rw [hb]
  have hgt : stdGtThr 102400 defaultConfig.STABILITY_THRESHOLD_SD = true := by
    simp only [stdGtThr, defaultConfig, Bool.or_eq_true, decide_eq_true_eq]
    norm_num
  have hr : roundSqrtQ 102400 = 320 :=
    roundSqrtQ_eq_of_between _ 320 (by norm_num) (by norm_num)
  have hmx : maxStdVar (some (22500 : ℚ)) (some 102400) = some 102400 := by
    rw [maxStdVar]
    norm_num
  simp only [staticStep, hv3, hv4, hmx, hgt]
  norm_num [staticTableStd, hr]
  rfl

/-- Counterexample to claim C10: a static table whose column 4 is
entirely non-numeric does not make the stability metric silently
healthy — `max(std3, NaN)` falls back to column 3's standard
deviation, here √180000 ≈ 424.26 > 300, so the label
"Neuro Risk (424)" is appended. -/
theorem claim10_counterexample :
    (colVals 4 staticTableNanCol).filterMap id = [] ∧
    load_and_clean 3 staticTableNanCol = some staticTableNanCol ∧
    staticStep defaultConfig ((some staticTableNanCol).bind (load_and_clean 3)) =
      (["Neuro Risk (424)"], []) := by
  refine ⟨by decide, by decide, ?_⟩
  have hb : (some staticTableNanCol).bind (load_and_clean 3) =
      some staticTableNanCol := by decide
  rw [hb]
  have hv3 : sampleVar (colVals 3 staticTableNanCol) = some 180000 := by
    norm_num [sampleVar, colVals, staticTableNanCol, List.filterMap_cons]
  have hv4 : sampleVar (colVals 4 staticTableNanCol) = none := by
    norm_num [sampleVar, colVals, staticTableNanCol, List.filterMap_cons]
  have hgt : stdGtThr 180000 defaultConfig.STABILITY_THRESHOLD_SD = true := by
    simp only [stdGtThr, defaultConfig, Bool.or_eq_true, decide_eq_true_eq]
    norm_num
  have hr : roundSqrtQ 180000 = 424 :=
    roundSqrtQ_eq_of_between _ 424 (by norm_num) (by norm_num)
  simp only [staticStep, hv3, hv4, maxStdVar, hgt]
  norm_num [staticTableNanCol, hr]
  rfl

/-- A NaN first standard deviation survives Python's max. -/
theorem maxStdVar_none_left (b : Option ℚ) : maxStdVar none b = none := rfl

/-- A NaN second standard deviation is ignored by Python's max. -/
theorem maxStdVar_none_right (a : Option ℚ) : maxStdVar a none = a := by
  cases a <;> rfl

/-- Claim C10 as amended: a metric that is undefined on the cleaned
data appends no risk label and the run completes — the sample
standard deviation over fewer than two retained rows is NaN, so the
stability metric appends nothing, and the mean of an empty bike
column is NaN, so the exertion metric appends nothing.  But an
entirely non-numeric column 4 does not by itself silence the
stability metric: its NaN standard deviation is ignored by
Python's max, and a label is appended exactly when column 3's
standard deviation exists and exceeds the threshold. -/
theorem claim10_degenerate_amended (cfg : RiskConfig) (df : Table) :
    (df.rows.length < 2 → (staticStep cfg (some df)).1 = []) ∧
    ((colVals 2 df).filterMap id = [] → (bikeStep cfg (some df)).1 = []) ∧
    (4 < df.ncols → (colVals 4 df).filterMap id = [] →
      ((staticStep cfg (some df)).1 ≠ [] ↔
        ∃ v : ℚ, sampleVar (colVals 3 df) = some v ∧
          stdGtThr v cfg.STABILITY_THRESHOLD_SD = true)) := by
  refine ⟨fun h2 => ?_, fun h => by simp [bikeStep, seriesMean, h], fun h4 hcol4 => ?_⟩
  · have h3 : sampleVar (colVals 3 df) = none := by
      rw [sampleVar, if_pos]
      calc ((colVals 3 df).filterMap id).length
          ≤ (colVals 3 df).length := List.length_filterMap_le _ _
        _ = df.rows.length := by simp [colVals]
        _ < 2 := h2
    by_cases h4 : 4 < df.ncols
    · simp [staticStep, h4, h3, maxStdVar_none_left]
    · simp [staticStep, h4]
  · have hv4 : sampleVar (colVals 4 df) = none := by
      rw [sampleVar, if_pos]
      simp [hcol4]
    cases hv3 : sampleVar (colVals 3 df) with
    | none => simp [staticStep, h4, hv3, hv4, maxStdVar_none_left]
    | some v =>
      by_cases hg : stdGtThr v cfg.STABILITY_THRESHOLD_SD = true
      · simp [staticStep, h4, hv3, hv4, maxStdVar_none_right, hg]
      · simp [staticStep, h4, hv3, hv4, maxStdVar_none_right, hg]

/-- Witness for claim C10 at concrete degenerate tables. -/
theorem claim10_degenerate_amended_witness :
    (staticStep defaultConfig (some ⟨5, [[some 1, some 1, some 1, some 99, some 1]]⟩)).1 = [] ∧
    (bikeStep defaultConfig (some ⟨3, []⟩)).1 = [] ∧
    ((staticStep defaultConfig (some staticTableNanCol)).1 ≠ [] ↔
      ∃ v : ℚ, sampleVar (colVals 3 staticTableNanCol) = some v ∧
        stdGtThr v defaultConfig.STABILITY_THRESHOLD_SD = true) :=
  ⟨(claim10_degenerate_amended defaultConfig
      ⟨5, [[some 1, some 1, some 1, some 99, some 1]]⟩).1 (by decide),
   (claim10_degenerate_amended defaultConfig ⟨3, []⟩).2.1 rfl,
   (claim10_degenerate_amended defaultConfig staticTableNanCol).2.2 (by decide) (by decide)⟩

/-- Soundness of the greedy segment consumer: a successful split
exhibits an occurrence of the segment. -/
theorem splitFirst_sound (pat : List Char) :
    ∀ s r : List Char, splitFirst pat s = some r → ∃ u, s = u ++ pat ++ r := by
  intro s
  induction s with
  | nil =>
    intro r h
    rw [splitFirst] at h
    split at h
    · next hp =>
      have hpat : pat = [] := List.prefix_nil.mp ( List.isPrefixOf_iff_prefix.mp hp)
      obtain rfl : ([] : List Char) = r := Option.some_injective _ h
      exact ⟨[], by simp [hpat]⟩
    · exact absurd h (by simp)
  | cons c t ih =>
    intro r h
    rw [splitFirst] at h
    split at h
    · next hp =>
      obtain ⟨t', ht'⟩ := List.isPrefixOf_iff_prefix.mp hp
      obtain rfl : (c :: t).drop pat.length = r := Option.some_injective _ h
      refine ⟨[], ?_⟩
      rw [← ht', List.drop_left]
      simp
    · next hp =>
      obtain ⟨u, hu⟩ := ih r h
      exact ⟨c :: u, by rw [hu]; simp⟩

/-- Completeness of the greedy segment consumer: when the segment
occurs, the split succeeds and its remainder still carries the tail
of that occurrence. -/
theorem splitFirst_complete (pat : List Char) :
    ∀ u v : List Char, ∃ w, splitFirst pat (u ++ pat ++ v) = some (w ++ v) := by
  intro u
  induction u with
  | nil =>
    intro v
    refine ⟨[], ?_⟩
    simp only [List.nil_append]
    cases hs : pat ++ v with
    | nil =>
      obtain ⟨hp, hv⟩ := List.append_eq_nil.mp hs
      rw [hp, hv, splitFirst]
      simp
    | cons c t =>
      rw [splitFirst]
      have hp : pat.isPrefixOf (c :: t) = true := by
        rw [← hs]
        exact List.isPrefixOf_iff_prefix.mpr ⟨v, rfl⟩
      rw [if_pos hp, ← hs, List.drop_left]
  | cons a u ih =>
    intro v
    simp only [List.cons_append]
    rw [splitFirst]
    split
    · next hp =>
      refine ⟨((a :: u) ++ pat).drop pat.length, ?_⟩
      have hshape : a :: (u ++ pat ++ v) = ((a :: u) ++ pat) ++ v := by simp
      rw [hshape, List.drop_append_of_le_length (by simp; omega)]
    · next hp =>
      exact ih v

/-- Characterization of matching the two middle segments of the
patient-specific glob: the patient id must occur, and the keyword
must occur at or after the end of that occurrence. -/
theorem matchOrdered_pair_iff (p q s : List Char) :
    matchOrdered [p, q] s = true ↔ ∃ u v w, s = u ++ p ++ v ++ q ++ w := by
  constructor
  · intro h
    cases hsp : splitFirst p s with
    | none => simp [matchOrdered, hsp] at h
    | some r =>
      cases hsq : splitFirst q r with
      | none => simp [matchOrdered, hsp, hsq] at h
      | some r2 =>
        obtain ⟨u, hu⟩ := splitFirst_sound p s r hsp
        obtain ⟨v, hv⟩ := splitFirst_sound q r r2 hsq
        exact ⟨u, v, r2, by rw [hu, hv]; simp [List.append_assoc]⟩
  · rintro ⟨u, v, w, rfl⟩
    obtain ⟨w1, hw1⟩ := splitFirst_complete p u (v ++ q ++ w)
    obtain ⟨w2, hw2⟩ := splitFirst_complete q (w1 ++ v) w
    have hs : u ++ p ++ v ++ q ++ w = u ++ p ++ (v ++ q ++ w) := by
      simp [List.append_assoc]
    have hr : w1 ++ (v ++ q ++ w) = w1 ++ v ++ q ++ w := by
      simp [List.append_assoc]
    rw [hs]
    simp only [matchOrdered, hw1, hr, hw2]

/-- Characterization of the patient-specific glob pattern
`*{patient_id}*{keyword}*.csv` on non-hidden names: a name matches
exactly when it decomposes as anything, then the patient id, then
anything, then the keyword, then anything, then ".csv" — the
patient id must come before the keyword. -/
theorem globMatch1_iff (pid kw s : List Char) (hh : hiddenName s = false) :
    globMatch1 pid kw s = true ↔
      ∃ u v w, s = u ++ pid ++ v ++ kw ++ w ++ csvSuffix := by
  rw [globMatch1, hh]
  simp only [Bool.not_false, Bool.true_and, Bool.and_eq_true]
  constructor
  · rintro ⟨hsuf, hord⟩
    obtain ⟨pre, hpre⟩ := List.isSuffixOf_iff_suffix.mp hsuf
    have htake : s.take (s.length - 4) = pre := by
      rw [← hpre]
      have hlen : (pre ++ csvSuffix).length - 4 = pre.length := by
        simp [csvSuffix]
      rw [hlen, List.take_left]
    rw [htake] at hord
    obtain ⟨u, v, w, hw⟩ := (matchOrdered_pair_iff pid kw pre).mp hord
    exact ⟨u, v, w, by rw [← hpre, hw]⟩
  · rintro ⟨u, v, w, rfl⟩
    have hpre : (u ++ pid ++ v ++ kw ++ w) ++ csvSuffix =
        u ++ pid ++ v ++ kw ++ w ++ csvSuffix := by simp
    refine ⟨List.isSuffixOf_iff_suffix.mpr ⟨u ++ pid ++ v ++ kw ++ w, hpre⟩, ?_⟩
    have htake : (u ++ pid ++ v ++ kw ++ w ++ csvSuffix).take
        ((u ++ pid ++ v ++ kw ++ w ++ csvSuffix).length - 4) =
          u ++ pid ++ v ++ kw ++ w := by
      rw [← hpre]
      have hlen : ((u ++ pid ++ v ++ kw ++ w) ++ csvSuffix).length - 4 =
          (u ++ pid ++ v ++ kw ++ w).length := by
        simp [csvSuffix]
        omega
      rw [hlen, List.take_left]
    rw [htake]
    exact (matchOrdered_pair_iff pid kw _).mpr ⟨u, v, w, rfl⟩

/-- The running maximum of Python's `max` stays within the inputs. -/
theorem foldl_mtime_mem :
    ∀ (fs : List FileEntry) (f : FileEntry),
      fs.foldl (fun acc g => if acc.mtime < g.mtime then g else acc) f = f ∨
        fs.foldl (fun acc g => if acc.mtime < g.mtime then g else acc) f ∈ fs := by
  intro fs
  induction fs with
  | nil => intro f; exact Or.inl rfl
  | cons b bs ih =>
    intro f
    simp only [List.foldl_cons]
    by_cases hc : f.mtime < b.mtime
    · rw [if_pos hc]
      rcases ih b with h | h
      · rw [h]
        exact Or.inr (List.mem_cons_self b bs)
      · exact Or.inr (List.mem_cons_of_mem b h)
    · rw [if_neg hc]
      rcases ih f with h | h
      · exact Or.inl h
      · exact Or.inr (List.mem_cons_of_mem b h)

/-- The file selected by `max(files, key=mtime)` is one of the
files. -/
theorem maxByMtime_mem (l : List FileEntry) (g : FileEntry)
    (h : maxByMtime l = some g) : g ∈ l := by
  cases l with
  | nil => exact absurd h (by simp [maxByMtime])
  | cons f fs =>
    rw [maxByMtime] at h
    obtain rfl := Option.some_injective _ h
    rcases foldl_mtime_mem fs f with h2 | h2
    · rw [h2]
      exact List.mem_cons_self f fs
    · exact List.mem_cons_of_mem f h2

/-- Counterexample to claim C3: the name "speak_99.csv" contains
both the patient id "99" and the keyword "speak" as case-sensitive
substrings and ends in ".csv", yet the patient-specific pattern
`*99*speak*.csv` does not match it, because the pattern requires the
patient id to occur before the keyword. -/
theorem claim3_counterexample :
    globMatch1 ['9','9'] ['s','p','e','a','k']
        ['s','p','e','a','k','_','9','9','.','c','s','v'] = false ∧
    (splitFirst ['9','9']
        ['s','p','e','a','k','_','9','9','.','c','s','v']).isSome = true ∧
    (splitFirst ['s','p','e','a','k']
        ['s','p','e','a','k','_','9','9','.','c','s','v']).isSome = true ∧
    csvSuffix.isSuffixOf ['s','p','e','a','k','_','9','9','.','c','s','v'] = true ∧
    hiddenName ['s','p','e','a','k','_','9','9','.','c','s','v'] = false := by
  decide

/-- Claim C3 as amended: the patient-specific pattern matches
exactly the non-hidden `.csv` names in which the patient id occurs
and the keyword occurs at or after the end of that occurrence (id
before keyword, not in any relative order); and whenever some file
in the directory matches the patient-specific pattern, the locator
selects a patient-specific match, regardless of every modification
time. -/
theorem claim3_locator_amended (pid kw : List Char) :
    (∀ s : List Char, hiddenName s = false →
      (globMatch1 pid kw s = true ↔
        ∃ u v w, s = u ++ pid ++ v ++ kw ++ w ++ csvSuffix)) ∧
    (∀ dir : List FileEntry,
      (∃ f ∈ dir, globMatch1 pid kw f.name = true) →
      ∃ g, locate pid kw dir = some g ∧ globMatch1 pid kw g.name = true) := by
  refine ⟨fun s hh => globMatch1_iff pid kw s hh, fun dir hex => ?_⟩
  obtain ⟨f, hf, hm⟩ := hex
  have hmem : f ∈ dir.filter (fun f => globMatch1 pid kw f.name) :=
    List.mem_filter.mpr ⟨hf, hm⟩
  cases hfl : dir.filter (fun f => globMatch1 pid kw f.name) with
  | nil =>
    rw [hfl] at hmem
    exact absurd hmem (by simp)
  | cons a as =>
    have hmax : maxByMtime (dir.filter (fun f => globMatch1 pid kw f.name)) =
        some (as.foldl (fun acc g => if acc.mtime < g.mtime then g else acc) a) := by
      rw [hfl, maxByMtime]
    refine ⟨as.foldl (fun acc g => if acc.mtime < g.mtime then g else acc) a, ?_, ?_⟩
    · rw [locate, hmax]
    · exact (List.mem_filter.mp (maxByMtime_mem _ _ hmax)).2

/-- Witness for claim C3: the pattern characterization at a concrete
name, and locator preference in a directory where the keyword-only
file is strictly newer than the patient-specific file. -/
theorem claim3_locator_amended_witness :
    globMatch1 ['9'] ['s'] ['9', 'b', 's', '.', 'c', 's', 'v'] = true ∧
    (∃ g, locate ['9'] ['s']
        [⟨['9', 'b', 's', '.', 'c', 's', 'v'], 0⟩,
         ⟨['z', 's', '.', 'c', 's', 'v'], 99⟩] = some g ∧
      globMatch1 ['9'] ['s'] g.name = true) :=
  ⟨((claim3_locator_amended ['9'] ['s']).1 ['9', 'b', 's', '.', 'c', 's', 'v']
      rfl).mpr ⟨[], ['b'], [], rfl⟩,
   (claim3_locator_amended ['9'] ['s']).2 _
     ⟨⟨['9', 'b', 's', '.', 'c', 's', 'v'], 0⟩, by decide, by decide⟩⟩

end RehabRisk
